import Mathlib

/-!
Shallow embedding of the pricing core of the `py-rust-optionpricer-example`
repository (the `pricingcore` crate): instrument model, transforms and
filters, the layered pricing contexts (lookup, shifted executor, stacked
vectorized), the measure dispatcher with its instrument pricers and
finite-difference greeks, and the position scaler.

Machine floats (`f64`) are modelled as exact rationals `ℚ`; the
Black–Scholes kernel (`model/bsmodel.rs`), whose transcendental arithmetic
is irrelevant to the claims settled here, is a parameter `bs` of the
evaluator.  Rust `Result` becomes `Except`, `HashMap` becomes an
association list queried with `List.lookup`, `chrono::Date` becomes a day
count `ℤ`, and `Arc` sharing becomes plain nesting of immutable values.
-/

namespace OptPricer

/-- Ticker (src/pricingcore/src/instrument.rs): an opaque string identity. -/
abbrev Ticker := String

/-- Stock (instrument.rs): a ticker. -/
structure Stock where
  ticker : Ticker
  deriving DecidableEq, Repr

/-- OptionType (instrument.rs): call or put. -/
inductive OptionType where
  | call
  | put
  deriving DecidableEq, Repr

/-- StockOption (instrument.rs): underlying stock, strike, expiry date
(modelled as a day count), option kind. -/
structure StockOption where
  underlying : Stock
  strike : ℚ
  expiry : ℤ
  optionType : OptionType
  deriving DecidableEq, Repr

/-- Instrument (instrument.rs): the two-variant sum.  `InstrumentRef` of
pricingctx.rs is a non-owning view with the same variants and is identified
with `Instrument` in this embedding. -/
inductive Instrument where
  | option (o : StockOption)
  | stock (s : Stock)
  deriving DecidableEq, Repr

/-- Measure (src/pricingcore/src/pricingctx.rs): the closed measure enum. -/
inductive Measure where
  | price
  | exposure
  | underlyingPrice
  | vol
  | rate
  | timeToExpiry
  | delta
  | gamma
  deriving DecidableEq, Repr

/-- MarketDataKind (src/pricingcore/src/error.rs). -/
inductive MarketDataKind where
  | price
  | vol
  deriving DecidableEq, Repr

/-- ModelError (src/pricingcore/src/model/modelerror.rs, surfaced through
`PricerError::ModelError`); its payload is opaque to the pricing core, so a
string suffices. -/
abbrev ModelError := String

/-- RiskFactor (src/pricingcore/src/transform.rs). -/
inductive RiskFactor where
  | equity
  deriving DecidableEq, Repr

/-- PricerError (src/pricingcore/src/error.rs).  The `Other` variant wraps a
boxed dynamic error that the core never constructs, so it is omitted. -/
inductive PricerError where
  | invalidScenario (msg : String)
  | invalidRiskFactorError (s : String)
  | invalidOptionTypeError (s : String)
  | invalidMeasureError (s : String)
  | shapeError (msg : String)
  | missingCalculatorError (m : Measure)
  | missingMarketDataError (marketDataKind : MarketDataKind) (ticker : Ticker)
  | modelError (e : ModelError)
  | shiftExecutionError (ins : Instrument) (message : String)
  | infrastructureError (msg : String)
  deriving DecidableEq, Repr

/-- InstrumentFilter (transform.rs). -/
inductive InstrumentFilter where
  | passthrough
  | tickerFilter (ticker : Ticker)
  | riskFactorFilter (rf : RiskFactor)
  deriving DecidableEq, Repr

/-- InstrumentFilter::accept (transform.rs, lines 30-43). -/
def InstrumentFilter.accept : InstrumentFilter → Instrument → Bool
  | .tickerFilter ticker, ins =>
    match ins with
    | .stock s => s.ticker == ticker
    | _ => false
  | .passthrough, _ => true
  | .riskFactorFilter rf, ins =>
    match rf with
    | .equity =>
      match ins with
      | .stock _ => true
      | _ => false

/-- ShiftTarget (transform.rs); the `HashSet` of the multi target is an
unordered membership structure, modelled as a list queried by membership. -/
inductive ShiftTarget where
  | singleMeasureTarget (m : Measure)
  | multiTarget (ms : List Measure)
  deriving DecidableEq, Repr

/-- ShiftTarget::is_target (transform.rs, lines 51-58). -/
def ShiftTarget.isTarget : ShiftTarget → Measure → Bool
  | .singleMeasureTarget tm, m => tm == m
  | .multiTarget tms, m => tms.contains m

/-- ShiftItem (transform.rs): filter, target and the rel/abs shift pair. -/
structure ShiftItem where
  instrumentFilter : InstrumentFilter
  shiftTarget : ShiftTarget
  relShift : ℚ
  absShift : ℚ
  deriving DecidableEq, Repr

/-- ShiftDefinition (transform.rs): a filter with parallel shift vectors. -/
structure ShiftDefinition where
  instrumentFilter : InstrumentFilter
  relShifts : List ℚ
  absShifts : List ℚ
  deriving DecidableEq, Repr

/-- ShiftDefinition::new (transform.rs, lines 90-105): rejects mismatched
vector lengths with `InvalidScenario`. -/
def ShiftDefinition.new (instrumentFilter : InstrumentFilter)
    (relShifts absShifts : List ℚ) : Except PricerError ShiftDefinition :=
  if relShifts.length ≠ absShifts.length then
    .error (.invalidScenario "abs and rel shift lengths differ!")
  else
    .ok ⟨instrumentFilter, relShifts, absShifts⟩

/-- ShiftDefinition::len (transform.rs). -/
def ShiftDefinition.len (sd : ShiftDefinition) : ℕ :=
  sd.relShifts.length

/-- TransformDefinition (transform.rs): a shift target plus a shift
definition. -/
structure TransformDefinition where
  shiftTarget : ShiftTarget
  shiftDefinition : ShiftDefinition
  deriving DecidableEq, Repr

/-- TransformDefinition::len (transform.rs). -/
def TransformDefinition.len (td : TransformDefinition) : ℕ :=
  td.shiftDefinition.len

/-- TransformDefinition::new_scalar_measure_transform (transform.rs). -/
def TransformDefinition.newScalarMeasureTransform (target : Measure)
    (filter : InstrumentFilter) (absShift relShift : ℚ) :
    Except PricerError TransformDefinition := do
  let shiftDefinition ← ShiftDefinition.new filter [relShift] [absShift]
  .ok ⟨.singleMeasureTarget target, shiftDefinition⟩

/-- TransformDefinition::new_vector_measure_transform (transform.rs). -/
def TransformDefinition.newVectorMeasureTransform (target : Measure)
    (filter : InstrumentFilter) (absShifts relShifts : List ℚ) :
    Except PricerError TransformDefinition := do
  let shiftDefinition ← ShiftDefinition.new filter relShifts absShifts
  .ok ⟨.singleMeasureTarget target, shiftDefinition⟩

/-- TransformDefinition::shift_item_at (transform.rs, lines 156-171):
out-of-range access yields `InvalidScenario`. -/
def TransformDefinition.shiftItemAt (td : TransformDefinition) (i : ℕ) :
    Except PricerError ShiftItem :=
  if i ≥ td.shiftDefinition.len then
    .error (.invalidScenario "accessing shift definition outside bounds")
  else
    .ok ⟨td.shiftDefinition.instrumentFilter, td.shiftTarget,
      td.shiftDefinition.relShifts.getD i 0, td.shiftDefinition.absShifts.getD i 0⟩

/-- TransformAlignment (transform.rs). -/
inductive TransformAlignment where
  | stacked
  | orthogonal
  deriving DecidableEq, Repr

/-- Axis (pricingctx.rs, lines 190-209): an id and a dimension. -/
structure Axis where
  axisId : ℕ
  dim : ℕ
  deriving DecidableEq, Repr

/-- Axis::new_base_axis (pricingctx.rs). -/
def Axis.newBaseAxis (dim : ℕ) : Axis := ⟨0, dim⟩

/-- Axis::new_from_parent (pricingctx.rs). -/
def Axis.newFromParent (parentAxis : Axis) (dim : ℕ) : Axis :=
  ⟨parentAxis.axisId + 1, dim⟩

/-- LookupCtx (src/pricingcore/src/lookupctx.rs).  The provider maps are
association lists from ticker to the value the concrete provider returns:
`SinglePriceProvider` always answers its stored price and `FixedVolSurface`
always answers its stored vol, `FixedZeroRateProvider` answers `ratePr`
(fixed to 0 by the constructor), and `FixedValuationDatePeriodProvider`
is determined by the valuation date. -/
structure LookupCtx where
  volProviders : List (Ticker × ℚ)
  marketPriceProviders : List (Ticker × ℚ)
  ratePr : ℚ
  valuationDate : ℤ

/-- LookupCtx::new_from_prices_and_vols (lookupctx.rs, lines 23-55): single
price provider per ticker, fixed vol per ticker, fixed zero rate, period
provider anchored at the valuation date. -/
def LookupCtx.newFromPricesAndVols (valuationDate : ℤ)
    (marketPrices vols : List (Ticker × ℚ)) : LookupCtx :=
  ⟨vols, marketPrices, 0, valuationDate⟩

/-- PricingCtx (pricingctx.rs, lines 111-114): the lookup executor or a
shifted executor (stackedvectorctx.rs, lines 12-23) wrapping a base context
with an ordered shift-item list. -/
inductive PricingCtx where
  | lookupExecutor (lc : LookupCtx)
  | shiftedExecutor (baseCtx : PricingCtx) (shifts : List ShiftItem)

/-- Ticker used for provider resolution (lookupctx.rs, lines 63-80): an
option resolves through its underlying's ticker. -/
def resolutionTicker : Instrument → Ticker
  | .option o => o.underlying.ticker
  | .stock s => s.ticker

/-- LookupCtx::vol_provider (lookupctx.rs). -/
def LookupCtx.volProvider (lc : LookupCtx) (instrument : Instrument) : Option ℚ :=
  lc.volProviders.lookup (resolutionTicker instrument)

/-- LookupCtx::market_price_provider (lookupctx.rs). -/
def LookupCtx.marketPriceProvider (lc : LookupCtx) (instrument : Instrument) :
    Option ℚ :=
  lc.marketPriceProviders.lookup (resolutionTicker instrument)

/-- LookupCtx::ir_provider (lookupctx.rs): always present. -/
def LookupCtx.irProvider (lc : LookupCtx) (_instrument : Instrument) : Option ℚ :=
  some lc.ratePr

/-- LookupCtx::period_provider (lookupctx.rs): always present; the provider
is determined by its valuation date. -/
def LookupCtx.periodProvider (lc : LookupCtx) (_instrument : Instrument) :
    Option ℤ :=
  some lc.valuationDate

/-- PricingCtx::vol_provider (pricingctx.rs, lines 149-157): a shifted
executor delegates to its base context. -/
def PricingCtx.volProvider : PricingCtx → Instrument → Option ℚ
  | .lookupExecutor le, instrument => le.volProvider instrument
  | .shiftedExecutor baseCtx _, instrument => baseCtx.volProvider instrument

/-- PricingCtx::market_price_provider (pricingctx.rs, lines 159-167). -/
def PricingCtx.marketPriceProvider : PricingCtx → Instrument → Option ℚ
  | .lookupExecutor le, instrument => le.marketPriceProvider instrument
  | .shiftedExecutor baseCtx _, instrument => baseCtx.marketPriceProvider instrument

/-- PricingCtx::ir_provider (pricingctx.rs, lines 169-177). -/
def PricingCtx.irProvider : PricingCtx → Instrument → Option ℚ
  | .lookupExecutor le, instrument => le.irProvider instrument
  | .shiftedExecutor baseCtx _, instrument => baseCtx.irProvider instrument

/-- PricingCtx::period_provider (pricingctx.rs, lines 179-187). -/
def PricingCtx.periodProvider : PricingCtx → Instrument → Option ℤ
  | .lookupExecutor le, instrument => le.periodProvider instrument
  | .shiftedExecutor baseCtx _, instrument => baseCtx.periodProvider instrument

/-- One step of the shift loop of ShiftedExecutor::process
(stackedvectorctx.rs, lines 33-37): apply `(1 + rel)·v + abs` when the
target matches the measure and the filter accepts the instrument. -/
def applyShiftItem (measure : Measure) (instrument : Instrument) (v : ℚ)
    (si : ShiftItem) : ℚ :=
  if si.shiftTarget.isTarget measure && si.instrumentFilter.accept instrument then
    (1 + si.relShift) * v + si.absShift
  else
    v

/-- PricingCtx::process_shifts (pricingctx.rs, lines 137-147) together with
ShiftedExecutor::process (stackedvectorctx.rs, lines 25-39): the lookup
executor is the identity; a shifted executor first delegates to its base
context, then folds its shift items in insertion order. -/
def PricingCtx.processShifts : PricingCtx → Measure → Instrument → ℚ →
    Except PricerError ℚ
  | .lookupExecutor _, _, _, v => .ok v
  | .shiftedExecutor baseCtx shifts, measure, instrument, v => do
    let v ← baseCtx.processShifts measure instrument v
    .ok (shifts.foldl (applyShiftItem measure instrument) v)

/-- BlackScholesParams (src/pricingcore/src/model/bsmodel.rs). -/
structure BlackScholesParams where
  spot : ℚ
  strike : ℚ
  tte : ℚ
  r : ℚ
  vol : ℚ

/-- Shape of the Black–Scholes kernel `black_scholes` (bsmodel.rs): the
evaluator below is parametric in it. -/
abbrev BSKernel := BlackScholesParams → OptionType → Except ModelError ℚ

/-- StackedVectorizedPricingCtx (src/pricingcore/src/stackedvectorctx.rs,
lines 42-49): an axis, a shared base context, an optional parent stacked
context and this level's transform definition.  The `axes` and `shape`
fields cached by `new` are recomputed by the functions below. -/
inductive SVCtx where
  | mk (axis : Axis) (baseCtx : PricingCtx) (parent : Option SVCtx)
      (transformDef : TransformDefinition)

def SVCtx.axis : SVCtx → Axis
  | .mk ax _ _ _ => ax

def SVCtx.baseCtx : SVCtx → PricingCtx
  | .mk _ b _ _ => b

def SVCtx.parent : SVCtx → Option SVCtx
  | .mk _ _ p _ => p

def SVCtx.transformDef : SVCtx → TransformDefinition
  | .mk _ _ _ td => td

/-- The axes list computed by StackedVectorizedPricingCtx::new
(stackedvectorctx.rs, lines 58-66): the parent's axes with this context's
axis pushed at the end. -/
def SVCtx.axes : SVCtx → List Axis
  | .mk ax _ parent _ =>
    (match parent with
     | some p => p.axes
     | none => []) ++ [ax]

/-- The shape computed by StackedVectorizedPricingCtx::new
(stackedvectorctx.rs, line 67): the dims of the axes. -/
def SVCtx.shape (s : SVCtx) : List ℕ :=
  s.axes.map Axis.dim

/-- StackedVectorizedPricingCtx::shift_base_ctx (stackedvectorctx.rs,
lines 78-89). -/
def shiftBaseCtx (ctx : PricingCtx) (transformDef : TransformDefinition) : SVCtx :=
  .mk (Axis.newBaseAxis transformDef.len) ctx none transformDef

/-- StackedVectorizedPricingCtx::shift_vector_ctx (stackedvectorctx.rs,
lines 91-108): Stacked alignment reuses the parent's axis, Orthogonal
derives a fresh axis; the base context is shared with the parent. -/
def shiftVectorCtx (ctx : SVCtx) (transformDef : TransformDefinition)
    (alignment : TransformAlignment) : SVCtx :=
  let axis :=
    match alignment with
    | .stacked => ctx.axis
    | .orthogonal => Axis.newFromParent ctx.axis transformDef.len
  .mk axis ctx.baseCtx (some ctx) transformDef

/-- StackedVectorizedPricingCtx::ctx_vec / fill_ctx_vec
(stackedvectorctx.rs, lines 110-121): ancestors plus self, root first. -/
def SVCtx.ctxVec : SVCtx → List SVCtx
  | .mk ax b parent td =>
    (match parent with
     | some p => p.ctxVec
     | none => []) ++ [.mk ax b parent td]

/-- StackedVectorizedPricingCtx::fill_shift_item_vec (stackedvectorctx.rs,
lines 123-136): every context in the chain whose axis equals `ax`
contributes `shift_item_at i`, in chain (root-first) order. -/
def fillShiftItemVec (ctxs : List SVCtx) (ax : Axis) (i : ℕ) :
    Except PricerError (List ShiftItem) :=
  match ctxs with
  | [] => .ok []
  | c :: cs =>
    if ax = c.axis then do
      let si ← c.transformDef.shiftItemAt i
      let rest ← fillShiftItemVec cs ax i
      .ok (si :: rest)
    else
      fillShiftItemVec cs ax i

/-- The per-coordinate shift list built by the coordinate loop of
StackedVectorizedPricingCtx::price (stackedvectorctx.rs, lines 159-162):
one `fill_shift_item_vec` pass per `(axis, coordinate)` pair, results
appended in axes order. -/
def coordShifts (ctxs : List SVCtx) : List Axis → List ℕ →
    Except PricerError (List ShiftItem)
  | ax :: axs, i :: is => do
    let here ← fillShiftItemVec ctxs ax i
    let rest ← coordShifts ctxs axs is
    .ok (here ++ rest)
  | _, _ => .ok []

/-- Row-major coordinate enumeration of a rectangular shape, the iteration
order of `ndarray`'s `indexed_iter_mut` used by the tensor loop of
StackedVectorizedPricingCtx::price (stackedvectorctx.rs, line 158). -/
def svCoords : List ℕ → List (List ℕ)
  | [] => [[]]
  | d :: ds => (List.range d).flatMap fun i => (svCoords ds).map (i :: ·)

/-- Closed position-scaling policy Measure::position_scaling
(pricingctx.rs, lines 97-108). -/
inductive PositionScaling where
  | noScaling
  | linear
  deriving DecidableEq, Repr

/-- Measure::position_scaling (pricingctx.rs, lines 97-108): only Exposure
scales linearly. -/
def Measure.positionScaling : Measure → PositionScaling
  | .price => .noScaling
  | .underlyingPrice => .noScaling
  | .vol => .noScaling
  | .rate => .noScaling
  | .timeToExpiry => .noScaling
  | .delta => .noScaling
  | .gamma => .noScaling
  | .exposure => .linear

/-- Position (src/pricingcore/src/portfolio.rs): a signed size and an
instrument. -/
structure Position where
  size : ℚ
  instrument : Instrument

/-- PositionScaler::scale (src/pricingcore/src/positioncalculator.rs,
lines 11-23). -/
def PositionScaler.scale (measure : Measure) (position : Position) (v : ℚ) : ℚ :=
  let scaleFactor :=
    match measure.positionScaling with
    | .noScaling => 1
    | .linear => position.size
  scaleFactor * v

/-- VectorResult (pricingctx.rs, lines 39-70): an N-dimensional array,
modelled as its shape and its row-major data. -/
structure VectorResult where
  shape : List ℕ
  data : List ℚ
  deriving DecidableEq, Repr

/-- VectorResult::resultview_1d (pricingctx.rs, lines 53-60): the data as a
1-D slice, or `ShapeError` when the result is not one-dimensional. -/
def VectorResult.resultview1d (vr : VectorResult) :
    Except PricerError (List ℚ) :=
  if vr.shape.length = 1 then
    .ok vr.data
  else
    .error (.shapeError ("vector result is not 1d. shape " ++ toString vr.shape.length))

/-- f64::EPSILON, exactly 2⁻⁵², the tolerance of the zero-price test in the
generic greeks (src/pricingcore/src/genericpricer.rs, lines 24 and 56). -/
def f64Epsilon : ℚ := 1 / 2 ^ 52

/-- Termination measure for the recursive measure evaluation: every
recursive `price` edge of the dispatcher strictly decreases this rank.  It
is a bookkeeping device of the embedding, not part of the source. -/
def rank : Measure → Instrument → ℕ
  | .price, .stock _ => 0
  | .exposure, .stock _ => 1
  | .delta, .stock _ => 1
  | .gamma, .stock _ => 1
  | .underlyingPrice, .stock _ => 0
  | .vol, .stock _ => 0
  | .rate, .stock _ => 0
  | .timeToExpiry, .stock _ => 0
  | .rate, .option _ => 0
  | .timeToExpiry, .option _ => 0
  | .underlyingPrice, .option _ => 1
  | .vol, .option _ => 2
  | .price, .option _ => 3
  | .delta, .option _ => 4
  | .gamma, .option _ => 4
  | .exposure, .option _ => 5

/-- price_stock_price (src/pricingcore/src/stockpricer.rs, lines 9-18):
resolve the market-price provider (a `SinglePriceProvider`, whose `eval`
returns its stored price) or fail with `MissingMarketData`. -/
def priceStockPrice (ctx : PricingCtx) (stock : Stock) : Except PricerError ℚ :=
  match ctx.marketPriceProvider (.stock stock) with
  | some price => .ok price
  | none => .error (.missingMarketDataError .price stock.ticker)

/-- The transform definition built by price_equity_delta and
price_equity_gamma (genericpricer.rs, lines 14-19 and 46-51): Price target,
Equity risk-factor filter, abs shifts `[0,0,0]`, rel shifts
`[-0.01, 0, 0.01]`. -/
def greekTransformDefE : Except PricerError TransformDefinition :=
  TransformDefinition.newVectorMeasureTransform .price
    (.riskFactorFilter .equity) [0, 0, 0] [-(1/100), 0, 1/100]

/-- PricingCtx::price (pricingctx.rs, lines 128-135): dispatch the measure
(dispatcher.rs, stockpricer.rs, optionpricer.rs, genericpricer.rs — inlined
here so that the recursion is a single function; the per-source wrappers
are re-stated below and related to this function by theorems), then run the
freshly computed value through the context's shift processing.

The generic greeks build a transient three-point stacked context
`shift_base_ctx(ctx, td)` and evaluate `Price` over it; its tensor loop is
inlined: the context's single axis is `(0, 3)`, its shape `[3]`, and the
row-major coordinates are `[0], [1], [2]`, each evaluated through a fresh
`ShiftedExecutor` over the coordinate's shift list. -/
def priceM (bs : BSKernel) (ctx : PricingCtx) (measure : Measure)
    (instrument : Instrument) : Except PricerError ℚ := do
  let v ← do
    let handled : Option ℚ ←
      match instrument with
      | .stock s =>
        -- price_stock (stockpricer.rs, lines 20-32)
        match measure with
        | .price => do
          let p ← priceStockPrice ctx s
          .ok (some p)
        | .exposure => do
          let p ← priceM bs ctx .price (.stock s)
          .ok (some p)
        | _ => .ok (none : Option ℚ)
      | .option o =>
        -- price_option (src/pricingcore/src/optionpricer.rs, lines 39-81)
        match measure with
        | .price => do
          -- price_option_price (optionpricer.rs, lines 10-21)
          let undprice ← priceM bs ctx .underlyingPrice (.option o)
          let rate ← priceM bs ctx .rate (.option o)
          let vol ← priceM bs ctx .vol (.option o)
          let tte ← priceM bs ctx .timeToExpiry (.option o)
          match bs ⟨undprice, o.strike, tte, rate, vol⟩ o.optionType with
          | .ok price => .ok (some price)
          | .error e => .error (.modelError e)
        | .exposure => do
          -- price_option_exposure (optionpricer.rs, lines 31-36)
          let uprice ← priceM bs ctx .underlyingPrice (.option o)
          let delta ← priceM bs ctx .delta (.option o)
          .ok (some (uprice * delta))
        | .underlyingPrice => do
          -- price_option_underlying_price (optionpricer.rs, lines 23-29)
          let p ← priceM bs ctx .price (.stock o.underlying)
          .ok (some p)
        | .vol =>
          -- a `FixedVolSurface` ignores the spot, strike and tte arguments
          match ctx.volProvider (.option o) with
          | some volValue => do
            let _spot ← priceM bs ctx .underlyingPrice (.option o)
            let _tte ← priceM bs ctx .timeToExpiry (.option o)
            .ok (some volValue)
          | none => .error (.infrastructureError "No vol provider found")
        | .rate =>
          match ctx.irProvider (.option o) with
          | some r => .ok (some r)
          | none => .error (.infrastructureError "No rate provider found")
        | .timeToExpiry =>
          -- period_in_year (marketdataproviders.rs): (expiry − valuation)/365
          match ctx.periodProvider (.option o) with
          | some valuationDate =>
            .ok (some (((o.expiry - valuationDate : ℤ) : ℚ) / 365))
          | none => .error (.infrastructureError "No perdio provider found")
        | _ => .ok (none : Option ℚ)
    match handled with
    | some pr => .ok pr
    | none =>
      -- price_generic (genericpricer.rs, lines 74-84)
      match measure with
      | .delta => do
        -- price_equity_delta (genericpricer.rs, lines 10-40)
        let td ← greekTransformDefE
        let vcxt := shiftBaseCtx ctx td
        let sh0 ← coordShifts vcxt.ctxVec vcxt.axes [0]
        let v0 ← priceM bs (.shiftedExecutor ctx sh0) .price instrument
        let sh1 ← coordShifts vcxt.ctxVec vcxt.axes [1]
        let v1 ← priceM bs (.shiftedExecutor ctx sh1) .price instrument
        let sh2 ← coordShifts vcxt.ctxVec vcxt.axes [2]
        let v2 ← priceM bs (.shiftedExecutor ctx sh2) .price instrument
        -- resultview_1d of the shape-[3] result and the 3-slot slice
        -- pattern both succeed; [vdown, v, vup] = [v0, v1, v2]
        if v1 = 0 then
          if |v2 - v0| < f64Epsilon then
            .ok 0
          else
            .error (.shiftExecutionError instrument "zero price in relshift")
        else
          .ok ((v2 - v0) / (2 * (v1 * (1/100))))
      | .gamma => do
        -- price_equity_gamma (genericpricer.rs, lines 42-72)
        let td ← greekTransformDefE
        let vcxt := shiftBaseCtx ctx td
        let sh0 ← coordShifts vcxt.ctxVec vcxt.axes [0]
        let v0 ← priceM bs (.shiftedExecutor ctx sh0) .price instrument
        let sh1 ← coordShifts vcxt.ctxVec vcxt.axes [1]
        let v1 ← priceM bs (.shiftedExecutor ctx sh1) .price instrument
        let sh2 ← coordShifts vcxt.ctxVec vcxt.axes [2]
        let v2 ← priceM bs (.shiftedExecutor ctx sh2) .price instrument
        if v1 = 0 then
          if |v2 - v0| < f64Epsilon then
            .ok 0
          else
            .error (.shiftExecutionError instrument "zero price in relshift")
        else
          .ok ((v2 - 2 * v1 + v0) / (v1 * (1/100)) ^ 2)
      | _ => .error (.missingCalculatorError measure)
  ctx.processShifts measure instrument v
termination_by rank measure instrument
decreasing_by
  all_goals first
    | (simp only [rank]; omega)
    | (cases instrument <;> simp only [rank] <;> omega)

/-- The tensor loop of StackedVectorizedPricingCtx::price
(stackedvectorctx.rs, lines 158-169): for each coordinate, build the
per-coordinate shift list, wrap the base context in a fresh
ShiftedExecutor, and evaluate the measure through it. -/
def svEvalCoords (bs : BSKernel) (baseCtx : PricingCtx) (ctxs : List SVCtx)
    (axes : List Axis) (measure : Measure) (instrument : Instrument) :
    List (List ℕ) → Except PricerError (List ℚ)
  | [] => .ok []
  | c :: cs => do
    let shifts ← coordShifts ctxs axes c
    let v ← priceM bs (.shiftedExecutor baseCtx shifts) measure instrument
    let rest ← svEvalCoords bs baseCtx ctxs axes measure instrument cs
    .ok (v :: rest)

/-- StackedVectorizedPricingCtx::price (stackedvectorctx.rs,
lines 151-172): evaluate the measure at every coordinate of the shape, in
row-major order, into a VectorResult. -/
def svPrice (bs : BSKernel) (s : SVCtx) (measure : Measure)
    (instrument : Instrument) : Except PricerError VectorResult := do
  let data ← svEvalCoords bs s.baseCtx s.ctxVec s.axes measure instrument
    (svCoords s.shape)
  .ok ⟨s.shape, data⟩

/-- StackedVectorizedPricingCtx::price_position (stackedvectorctx.rs,
lines 140-149): price, then rescale every tensor element in place. -/
def svPricePosition (bs : BSKernel) (s : SVCtx) (measure : Measure)
    (position : Position) : Except PricerError VectorResult := do
  let vectorres ← svPrice bs s measure position.instrument
  .ok ⟨vectorres.shape, vectorres.data.map (PositionScaler.scale measure position)⟩

/-- PricingCtx::price_position (pricingctx.rs, lines 117-126): scalar price
followed by the position scaler. -/
def pricePosition (bs : BSKernel) (ctx : PricingCtx) (measure : Measure)
    (position : Position) : Except PricerError ℚ := do
  let v ← priceM bs ctx measure position.instrument
  .ok (PositionScaler.scale measure position v)

/-! The per-source-function wrappers of the dispatcher.  `priceM` above
inlines them into one recursion; they are restated here with the source's
module structure (recursive occurrences refer to `priceM`, exactly as the
Rust functions call `ctx.price`), and theorems below relate them to
`priceM`. -/

/-- price_stock (src/pricingcore/src/stockpricer.rs, lines 20-32): `Some`
for Price and Exposure, `None` ("not handled") otherwise. -/
def priceStock (bs : BSKernel) (ctx : PricingCtx) (measure : Measure)
    (stock : Stock) : Except PricerError (Option ℚ) :=
  match measure with
  | .price => do
    let p ← priceStockPrice ctx stock
    .ok (some p)
  | .exposure => do
    let p ← priceM bs ctx .price (.stock stock)
    .ok (some p)
  | _ => .ok none

/-- price_option (src/pricingcore/src/optionpricer.rs, lines 39-81):
`Some` for Price, Exposure, UnderlyingPrice, Vol, Rate and TimeToExpiry,
`None` ("not handled") otherwise. -/
def priceOption (bs : BSKernel) (ctx : PricingCtx) (measure : Measure)
    (o : StockOption) : Except PricerError (Option ℚ) :=
  match measure with
  | .price => do
    let undprice ← priceM bs ctx .underlyingPrice (.option o)
    let rate ← priceM bs ctx .rate (.option o)
    let vol ← priceM bs ctx .vol (.option o)
    let tte ← priceM bs ctx .timeToExpiry (.option o)
    match bs ⟨undprice, o.strike, tte, rate, vol⟩ o.optionType with
    | .ok price => .ok (some price)
    | .error e => .error (.modelError e)
  | .exposure => do
    let uprice ← priceM bs ctx .underlyingPrice (.option o)
    let delta ← priceM bs ctx .delta (.option o)
    .ok (some (uprice * delta))
  | .underlyingPrice => do
    let p ← priceM bs ctx .price (.stock o.underlying)
    .ok (some p)
  | .vol =>
    match ctx.volProvider (.option o) with
    | some volValue => do
      let _spot ← priceM bs ctx .underlyingPrice (.option o)
      let _tte ← priceM bs ctx .timeToExpiry (.option o)
      .ok (some volValue)
    | none => .error (.infrastructureError "No vol provider found")
  | .rate =>
    match ctx.irProvider (.option o) with
    | some r => .ok (some r)
    | none => .error (.infrastructureError "No rate provider found")
  | .timeToExpiry =>
    match ctx.periodProvider (.option o) with
    | some valuationDate =>
      .ok (some (((o.expiry - valuationDate : ℤ) : ℚ) / 365))
    | none => .error (.infrastructureError "No perdio provider found")
  | _ => .ok none

/-- price_equity_delta (src/pricingcore/src/genericpricer.rs, lines 10-40):
a transient three-point stacked context over the Equity risk factor, rel
shifts `[-0.01, 0, 0.01]`, targeting Price; finite difference
`(V_up − V_down) / (2h)` with `h = V · 0.01`. -/
def priceEquityDelta (bs : BSKernel) (ctx : PricingCtx)
    (instrument : Instrument) : Except PricerError ℚ := do
  let transformDef ← greekTransformDefE
  let vcxt := shiftBaseCtx ctx transformDef
  let vres ← svPrice bs vcxt .price instrument
  let slice ← vres.resultview1d
  match slice with
  | [vdown, v, vup] =>
    if v = 0 then
      if |vup - vdown| < f64Epsilon then
        .ok 0
      else
        .error (.shiftExecutionError instrument "zero price in relshift")
    else
      .ok ((vup - vdown) / (2 * (v * (1/100))))
  | _ => .error (.shiftExecutionError instrument "unknown scenario dimension")

/-- price_equity_gamma (src/pricingcore/src/genericpricer.rs, lines 42-72):
same three-point context; `(V_up − 2V + V_down) / h²` with `h = V · 0.01`. -/
def priceEquityGamma (bs : BSKernel) (ctx : PricingCtx)
    (instrument : Instrument) : Except PricerError ℚ := do
  let transformDef ← greekTransformDefE
  let vcxt := shiftBaseCtx ctx transformDef
  let vres ← svPrice bs vcxt .price instrument
  let slice ← vres.resultview1d
  match slice with
  | [vdown, v, vup] =>
    if v = 0 then
      if |vup - vdown| < f64Epsilon then
        .ok 0
      else
        .error (.shiftExecutionError instrument "zero price in relshift")
    else
      .ok ((vup - 2 * v + vdown) / (v * (1/100)) ^ 2)
  | _ => .error (.shiftExecutionError instrument "unknown scenario dimension")

/-- price_generic (src/pricingcore/src/genericpricer.rs, lines 74-84):
finite-difference Delta and Gamma, `MissingCalculator` otherwise. -/
def priceGeneric (bs : BSKernel) (ctx : PricingCtx) (measure : Measure)
    (instrument : Instrument) : Except PricerError ℚ :=
  match measure with
  | .delta => priceEquityDelta bs ctx instrument
  | .gamma => priceEquityGamma bs ctx instrument
  | _ => .error (.missingCalculatorError measure)

/-- The instrument-kind step of dispatch_measure
(src/pricingcore/src/dispatcher.rs, lines 16-19). -/
def instrumentCalc (bs : BSKernel) (ctx : PricingCtx) (measure : Measure)
    (instrument : Instrument) : Except PricerError (Option ℚ) :=
  match instrument with
  | .option o => priceOption bs ctx measure o
  | .stock s => priceStock bs ctx measure s

/-- dispatch_measure (src/pricingcore/src/dispatcher.rs, lines 11-25):
instrument-kind calculator first, generic calculator when "not handled". -/
def dispatchMeasure (bs : BSKernel) (ctx : PricingCtx) (measure : Measure)
    (instrument : Instrument) : Except PricerError ℚ := do
  let m ← instrumentCalc bs ctx measure instrument
  match m with
  | some pr => .ok pr
  | none => priceGeneric bs ctx measure instrument

/-! ### Helper lemmas -/

@[simp] theorem okBind {ε α β : Type} (a : α) (f : α → Except ε β) :
    (Except.ok a : Except ε α) >>= f = f a := rfl

@[simp] theorem errorBind {ε α β : Type} (e : ε) (f : α → Except ε β) :
    (Except.error e : Except ε α) >>= f = Except.error e := rfl

/-- A shift item with no effect on a non-matching pair leaves the value
unchanged. -/
theorem applyShiftItem_not_matching {m : Measure} {ins : Instrument}
    {si : ShiftItem}
    (h : ¬(si.shiftTarget.isTarget m = true ∧ si.instrumentFilter.accept ins = true))
    (v : ℚ) : applyShiftItem m ins v si = v := by
  unfold applyShiftItem
  rw [if_neg]
  simp only [Bool.and_eq_true]
  exact h

/-- A zero shift item (rel = abs = 0) leaves the value unchanged whether or
not it matches. -/
theorem applyShiftItem_zero {m : Measure} {ins : Instrument} {si : ShiftItem}
    (hrel : si.relShift = 0) (habs : si.absShift = 0) (v : ℚ) :
    applyShiftItem m ins v si = v := by
  unfold applyShiftItem
  split
  · rw [hrel, habs]; ring
  · rfl

/-- `process_shifts` never fails: it always returns `ok` of a fold over the
executor chain. -/
theorem processShifts_ok (ctx : PricingCtx) (m : Measure) (ins : Instrument)
    (v : ℚ) : ∃ w, ctx.processShifts m ins v = .ok w := by
  induction ctx generalizing v with
  | lookupExecutor lc => exact ⟨v, rfl⟩
  | shiftedExecutor base shifts ih =>
    obtain ⟨w, hw⟩ := ih v
    exact ⟨shifts.foldl (applyShiftItem m ins) w, by
      simp [PricingCtx.processShifts, hw]⟩

/-! ### Claim theorems -/

/-- C9.  `InstrumentFilter.accept`: Passthrough accepts every instrument;
ByTicker(t) accepts exactly the stock variants whose ticker equals t and
never an option, even one whose underlying's ticker equals t;
ByRiskFactor(Equity) accepts exactly the stock variants and never an
option. -/
theorem instrument_filter_accept_spec :
    (∀ ins : Instrument, InstrumentFilter.passthrough.accept ins = true) ∧
    (∀ (t : Ticker) (s : Stock),
      (InstrumentFilter.tickerFilter t).accept (.stock s) = true ↔ s.ticker = t) ∧
    (∀ (t : Ticker) (o : StockOption),
      (InstrumentFilter.tickerFilter t).accept (.option o) = false) ∧
    (∀ o : StockOption,
      (InstrumentFilter.tickerFilter o.underlying.ticker).accept (.option o) = false) ∧
    (∀ s : Stock,
      (InstrumentFilter.riskFactorFilter .equity).accept (.stock s) = true) ∧
    (∀ o : StockOption,
      (InstrumentFilter.riskFactorFilter .equity).accept (.option o) = false) := by
  refine ⟨fun ins => rfl, fun t s => ?_, fun t o => rfl, fun o => rfl,
    fun s => rfl, fun o => rfl⟩
  simp [InstrumentFilter.accept]

/-- C10.  Every provider lookup (market-price, vol, rate, period) on a
ShiftedExecutor context returns exactly what the wrapped base context
returns for the same instrument: provider resolution is invariant under
wrapping a context in any ShiftedExecutor. -/
theorem providers_invariant_under_shifted_executor
    (base : PricingCtx) (shifts : List ShiftItem) (ins : Instrument) :
    (PricingCtx.shiftedExecutor base shifts).marketPriceProvider ins =
      base.marketPriceProvider ins ∧
    (PricingCtx.shiftedExecutor base shifts).volProvider ins =
      base.volProvider ins ∧
    (PricingCtx.shiftedExecutor base shifts).irProvider ins =
      base.irProvider ins ∧
    (PricingCtx.shiftedExecutor base shifts).periodProvider ins =
      base.periodProvider ins :=
  ⟨rfl, rfl, rfl, rfl⟩

/-- C3.  `ShiftedExecutor::process` first delegates to the base context's
shift processing, then folds the shift items in insertion order, updating
`v ← (1 + rel)·v + abs` exactly when the item's target matches the measure
and its filter accepts the instrument; a non-matching item anywhere in the
list leaves the result unchanged. -/
theorem shifted_executor_process_spec (base : PricingCtx)
    (shifts : List ShiftItem) (m : Measure) (ins : Instrument) (v : ℚ) :
    (PricingCtx.processShifts (.shiftedExecutor base shifts) m ins v =
      (base.processShifts m ins v).map (fun v0 =>
        shifts.foldl (fun a si =>
          if si.shiftTarget.isTarget m && si.instrumentFilter.accept ins then
            (1 + si.relShift) * a + si.absShift
          else a) v0)) ∧
    (∀ (l1 : List ShiftItem) (si : ShiftItem) (l2 : List ShiftItem),
      ¬(si.shiftTarget.isTarget m = true ∧ si.instrumentFilter.accept ins = true) →
      PricingCtx.processShifts (.shiftedExecutor base (l1 ++ si :: l2)) m ins v =
      PricingCtx.processShifts (.shiftedExecutor base (l1 ++ l2)) m ins v) := by
  constructor
  · obtain ⟨w, hw⟩ := processShifts_ok base m ins v
    have hfun : (fun (a : ℚ) (si : ShiftItem) =>
        if si.shiftTarget.isTarget m && si.instrumentFilter.accept ins then
          (1 + si.relShift) * a + si.absShift
        else a) = applyShiftItem m ins := by
      funext a si
      rfl
    simp only [PricingCtx.processShifts, hw, okBind, hfun]
    rfl
  · intro l1 si l2 h
    obtain ⟨w, hw⟩ := processShifts_ok base m ins v
    simp only [PricingCtx.processShifts, hw, okBind, List.foldl_append,
      List.foldl_cons]
    rw [applyShiftItem_not_matching h]

/-- Witness for C3: a concrete shifted executor over a lookup context with
one matching and one non-matching shift item. -/
theorem shifted_executor_process_spec_witness :
    (PricingCtx.processShifts
        (.shiftedExecutor (.lookupExecutor ⟨[], [], 0, 0⟩)
          ([⟨.passthrough, .singleMeasureTarget .price, 0, 5⟩] ++
            ⟨.passthrough, .singleMeasureTarget .vol, 1, 1⟩ ::
            [⟨.passthrough, .singleMeasureTarget .price, 1, 0⟩]))
        .price (.stock ⟨"AAPL"⟩) 100 =
      PricingCtx.processShifts
        (.shiftedExecutor (.lookupExecutor ⟨[], [], 0, 0⟩)
          ([⟨.passthrough, .singleMeasureTarget .price, 0, 5⟩] ++
            [⟨.passthrough, .singleMeasureTarget .price, 1, 0⟩]))
        .price (.stock ⟨"AAPL"⟩) 100) :=
  (shifted_executor_process_spec (.lookupExecutor ⟨[], [], 0, 0⟩)
      ([⟨.passthrough, .singleMeasureTarget .price, 0, 5⟩] ++
        [⟨.passthrough, .singleMeasureTarget .price, 1, 0⟩])
      .price (.stock ⟨"AAPL"⟩) 100).2
    [⟨.passthrough, .singleMeasureTarget .price, 0, 5⟩]
    ⟨.passthrough, .singleMeasureTarget .vol, 1, 1⟩
    [⟨.passthrough, .singleMeasureTarget .price, 1, 0⟩]
    (by decide)

/-- C7.  Pricing a stock whose ticker has no entry in the lookup context's
market-price provider map fails with `MissingMarketData{Price, ticker}` for
measure Price and hence for Exposure; when the ticker is present, Price
succeeds with the provider's value. -/
theorem missing_market_data_spec (bs : BSKernel) (lc : LookupCtx) (s : Stock) :
    (lc.marketPriceProviders.lookup s.ticker = none →
      priceM bs (.lookupExecutor lc) .price (.stock s) =
        .error (.missingMarketDataError .price s.ticker) ∧
      priceM bs (.lookupExecutor lc) .exposure (.stock s) =
        .error (.missingMarketDataError .price s.ticker)) ∧
    (∀ p : ℚ, lc.marketPriceProviders.lookup s.ticker = some p →
      priceM bs (.lookupExecutor lc) .price (.stock s) = .ok p) := by
  constructor
  · intro h
    constructor <;>
      simp [priceM, priceStockPrice, PricingCtx.marketPriceProvider,
        LookupCtx.marketPriceProvider, resolutionTicker, h,
        PricingCtx.processShifts]
  · intro p h
    simp [priceM, priceStockPrice, PricingCtx.marketPriceProvider,
      LookupCtx.marketPriceProvider, resolutionTicker, h,
      PricingCtx.processShifts]

/-- Witness for C7: a lookup context whose map carries only AAPL; pricing
MSFT fails with the missing-market-data error, pricing AAPL yields 105. -/
theorem missing_market_data_spec_witness :
    (priceM (fun _ _ => .error "") (.lookupExecutor ⟨[], [("AAPL", 105)], 0, 0⟩)
        .price (.stock ⟨"MSFT"⟩) =
      .error (.missingMarketDataError .price "MSFT")) ∧
    (priceM (fun _ _ => .error "") (.lookupExecutor ⟨[], [("AAPL", 105)], 0, 0⟩)
        .exposure (.stock ⟨"MSFT"⟩) =
      .error (.missingMarketDataError .price "MSFT")) ∧
    (priceM (fun _ _ => .error "") (.lookupExecutor ⟨[], [("AAPL", 105)], 0, 0⟩)
        .price (.stock ⟨"AAPL"⟩) = .ok 105) :=
  ⟨((missing_market_data_spec _ ⟨[], [("AAPL", 105)], 0, 0⟩ ⟨"MSFT"⟩).1
      (by decide)).1,
   ((missing_market_data_spec _ ⟨[], [("AAPL", 105)], 0, 0⟩ ⟨"MSFT"⟩).1
      (by decide)).2,
   (missing_market_data_spec _ ⟨[], [("AAPL", 105)], 0, 0⟩ ⟨"AAPL"⟩).2 105
      (by decide)⟩

/-- C8.  A measure the instrument-kind calculator reports as not handled
and that is neither Delta nor Gamma makes `dispatch_measure` fail with
`MissingCalculator(measure)`; in particular, on a stock every measure other
than Price, Exposure, Delta and Gamma fails that way. -/
theorem missing_calculator_spec (bs : BSKernel) (ctx : PricingCtx)
    (m : Measure) :
    (∀ ins : Instrument, instrumentCalc bs ctx m ins = .ok none →
      m ≠ .delta → m ≠ .gamma →
      dispatchMeasure bs ctx m ins = .error (.missingCalculatorError m)) ∧
    (∀ s : Stock, m ≠ .price → m ≠ .exposure → m ≠ .delta → m ≠ .gamma →
      priceM bs ctx m (.stock s) = .error (.missingCalculatorError m)) := by
  constructor
  · intro ins h hd hg
    cases m <;>
      simp_all [dispatchMeasure, priceGeneric]
  · intro s hp he hd hg
    cases m <;>
      simp_all [priceM]

/-- Witness for C8: on a stock, Vol dispatches to the generic calculator
and fails with the missing-calculator error. -/
theorem missing_calculator_spec_witness :
    (instrumentCalc (fun _ _ => .error "")
        (.lookupExecutor ⟨[], [("AAPL", 105)], 0, 0⟩) .vol (.stock ⟨"AAPL"⟩) =
          .ok none →
      dispatchMeasure (fun _ _ => .error "")
        (.lookupExecutor ⟨[], [("AAPL", 105)], 0, 0⟩) .vol (.stock ⟨"AAPL"⟩) =
        .error (.missingCalculatorError .vol)) ∧
    priceM (fun _ _ => .error "")
      (.lookupExecutor ⟨[], [("AAPL", 105)], 0, 0⟩) .vol (.stock ⟨"AAPL"⟩) =
      .error (.missingCalculatorError .vol) :=
  ⟨fun h =>
    (missing_calculator_spec (fun _ _ => .error "")
        (.lookupExecutor ⟨[], [("AAPL", 105)], 0, 0⟩) .vol).1
      (.stock ⟨"AAPL"⟩) h (by decide) (by decide),
   (missing_calculator_spec (fun _ _ => .error "")
        (.lookupExecutor ⟨[], [("AAPL", 105)], 0, 0⟩) .vol).2
      ⟨"AAPL"⟩ (by decide) (by decide) (by decide) (by decide)⟩

/-- C5.  `price_position` with measure Exposure returns the position size
times the size-1 result (elementwise for tensor results); for every other
measure the result is independent of the position's size. -/
theorem position_scaling_spec (bs : BSKernel) (ctx : PricingCtx)
    (sctx : SVCtx) (ins : Instrument) (s : ℚ) :
    (pricePosition bs ctx .exposure ⟨s, ins⟩ =
      (pricePosition bs ctx .exposure ⟨1, ins⟩).map (fun v => s * v)) ∧
    (∀ m : Measure, m ≠ .exposure →
      pricePosition bs ctx m ⟨s, ins⟩ = pricePosition bs ctx m ⟨1, ins⟩) ∧
    (svPricePosition bs sctx .exposure ⟨s, ins⟩ =
      (svPricePosition bs sctx .exposure ⟨1, ins⟩).map
        (fun vr => ⟨vr.shape, vr.data.map (fun v => s * v)⟩)) ∧
    (∀ m : Measure, m ≠ .exposure →
      svPricePosition bs sctx m ⟨s, ins⟩ = svPricePosition bs sctx m ⟨1, ins⟩) := by
  refine ⟨?_, ?_, ?_, ?_⟩
  · cases h : priceM bs ctx .exposure ins <;>
      simp [pricePosition, h, PositionScaler.scale, Measure.positionScaling,
        Except.map]
  · intro m hm
    have hns : m.positionScaling = .noScaling := by
      cases m <;> simp_all [Measure.positionScaling]
    cases h : priceM bs ctx m ins <;>
      simp [pricePosition, h, PositionScaler.scale, hns]
  · cases h : svPrice bs sctx .exposure ins <;>
      simp [svPricePosition, h, PositionScaler.scale, Measure.positionScaling,
        List.map_map, Function.comp, Except.map]
  · intro m hm
    have hns : m.positionScaling = .noScaling := by
      cases m <;> simp_all [Measure.positionScaling]
    cases h : svPrice bs sctx m ins <;>
      simp [svPricePosition, h, PositionScaler.scale, hns]

/-- Witness for C5: size independence instantiated at measure Price on a
concrete lookup context, position size 7, together with the Exposure
scaling at the same inputs. -/
theorem position_scaling_spec_witness :
    (pricePosition (fun _ _ => .error "")
        (.lookupExecutor ⟨[], [("AAPL", 105)], 0, 0⟩) .exposure
        ⟨7, .stock ⟨"AAPL"⟩⟩ =
      (pricePosition (fun _ _ => .error "")
          (.lookupExecutor ⟨[], [("AAPL", 105)], 0, 0⟩) .exposure
          ⟨1, .stock ⟨"AAPL"⟩⟩).map (fun v => 7 * v)) ∧
    (pricePosition (fun _ _ => .error "")
        (.lookupExecutor ⟨[], [("AAPL", 105)], 0, 0⟩) .price
        ⟨7, .stock ⟨"AAPL"⟩⟩ =
      pricePosition (fun _ _ => .error "")
        (.lookupExecutor ⟨[], [("AAPL", 105)], 0, 0⟩) .price
        ⟨1, .stock ⟨"AAPL"⟩⟩) :=
  ⟨(position_scaling_spec (fun _ _ => .error "")
      (.lookupExecutor ⟨[], [("AAPL", 105)], 0, 0⟩)
      (shiftBaseCtx (.lookupExecutor ⟨[], [("AAPL", 105)], 0, 0⟩)
        ⟨.singleMeasureTarget .price, ⟨.passthrough, [0], [0]⟩⟩)
      (.stock ⟨"AAPL"⟩) 7).1,
   (position_scaling_spec (fun _ _ => .error "")
      (.lookupExecutor ⟨[], [("AAPL", 105)], 0, 0⟩)
      (shiftBaseCtx (.lookupExecutor ⟨[], [("AAPL", 105)], 0, 0⟩)
        ⟨.singleMeasureTarget .price, ⟨.passthrough, [0], [0]⟩⟩)
      (.stock ⟨"AAPL"⟩) 7).2.1 .price (by decide)⟩

/-- The transform definition built by price_equity_delta and
price_equity_gamma (genericpricer.rs): Price target, Equity risk-factor
filter, rel shifts `[-0.01, 0, 0.01]`, abs shifts `[0, 0, 0]`. -/
def greekTd : TransformDefinition :=
  ⟨.singleMeasureTarget .price,
    ⟨.riskFactorFilter .equity, [-(1/100), 0, 1/100], [0, 0, 0]⟩⟩

theorem greekTransformDefE_eq : greekTransformDefE = .ok greekTd := rfl

/-- The tensor loop of the transient three-point greek context, unfolded:
three row-major coordinates, each pricing through a fresh ShiftedExecutor
holding the single shift item of that coordinate. -/
theorem svPrice_greek (bs : BSKernel) (ctx : PricingCtx) (m : Measure)
    (ins : Instrument) :
    svPrice bs (shiftBaseCtx ctx greekTd) m ins = (do
      let v0 ← priceM bs (.shiftedExecutor ctx
        [⟨.riskFactorFilter .equity, .singleMeasureTarget .price, -(1/100), 0⟩]) m ins
      let v1 ← priceM bs (.shiftedExecutor ctx
        [⟨.riskFactorFilter .equity, .singleMeasureTarget .price, 0, 0⟩]) m ins
      let v2 ← priceM bs (.shiftedExecutor ctx
        [⟨.riskFactorFilter .equity, .singleMeasureTarget .price, 1/100, 0⟩]) m ins
      .ok ⟨[3], [v0, v1, v2]⟩) := by
  simp only [svPrice, svEvalCoords, svCoords, coordShifts, fillShiftItemVec,
    shiftBaseCtx, SVCtx.ctxVec, SVCtx.axes, SVCtx.axis, SVCtx.baseCtx,
    SVCtx.transformDef, SVCtx.shape, TransformDefinition.shiftItemAt,
    TransformDefinition.len, ShiftDefinition.len, Axis.newBaseAxis, greekTd]
  cases h0 : priceM bs (.shiftedExecutor ctx
      [⟨.riskFactorFilter .equity, .singleMeasureTarget .price, -(1/100), 0⟩]) m ins <;>
    cases h1 : priceM bs (.shiftedExecutor ctx
      [⟨.riskFactorFilter .equity, .singleMeasureTarget .price, 0, 0⟩]) m ins <;>
    cases h2 : priceM bs (.shiftedExecutor ctx
      [⟨.riskFactorFilter .equity, .singleMeasureTarget .price, 1/100, 0⟩]) m ins <;>
    simp_all

/-- The Delta arm of the dispatcher equals price_equity_delta followed by
the context's shift processing, exactly as in PricingCtx::price. -/
theorem priceM_delta_bridge (bs : BSKernel) (ctx : PricingCtx)
    (ins : Instrument) :
    priceM bs ctx .delta ins = (do
      let x ← priceEquityDelta bs ctx ins
      ctx.processShifts .delta ins x) := by
  rw [priceEquityDelta, greekTransformDefE_eq]
  simp only [okBind, svPrice_greek, VectorResult.resultview1d]
  conv_lhs => rw [priceM.eq_def]
  cases ins <;>
    (simp only [okBind, greekTransformDefE_eq, coordShifts, fillShiftItemVec,
      shiftBaseCtx, SVCtx.ctxVec, SVCtx.axes, SVCtx.axis, SVCtx.transformDef,
      TransformDefinition.shiftItemAt, TransformDefinition.len,
      ShiftDefinition.len, Axis.newBaseAxis, greekTd]
     cases h0 : priceM bs (.shiftedExecutor ctx
        [⟨.riskFactorFilter .equity, .singleMeasureTarget .price, -(1/100), 0⟩])
        .price _ <;>
      cases h1 : priceM bs (.shiftedExecutor ctx
        [⟨.riskFactorFilter .equity, .singleMeasureTarget .price, 0, 0⟩])
        .price _ <;>
      cases h2 : priceM bs (.shiftedExecutor ctx
        [⟨.riskFactorFilter .equity, .singleMeasureTarget .price, 1/100, 0⟩])
        .price _ <;>
      (simp_all
       try (split_ifs <;> simp)))

/-- The Gamma arm of the dispatcher equals price_equity_gamma followed by
the context's shift processing. -/
theorem priceM_gamma_bridge (bs : BSKernel) (ctx : PricingCtx)
    (ins : Instrument) :
    priceM bs ctx .gamma ins = (do
      let x ← priceEquityGamma bs ctx ins
      ctx.processShifts .gamma ins x) := by
  rw [priceEquityGamma, greekTransformDefE_eq]
  simp only [okBind, svPrice_greek, VectorResult.resultview1d]
  conv_lhs => rw [priceM.eq_def]
  cases ins <;>
    (simp only [okBind, greekTransformDefE_eq, coordShifts, fillShiftItemVec,
      shiftBaseCtx, SVCtx.ctxVec, SVCtx.axes, SVCtx.axis, SVCtx.transformDef,
      TransformDefinition.shiftItemAt, TransformDefinition.len,
      ShiftDefinition.len, Axis.newBaseAxis, greekTd]
     cases h0 : priceM bs (.shiftedExecutor ctx
        [⟨.riskFactorFilter .equity, .singleMeasureTarget .price, -(1/100), 0⟩])
        .price _ <;>
      cases h1 : priceM bs (.shiftedExecutor ctx
        [⟨.riskFactorFilter .equity, .singleMeasureTarget .price, 0, 0⟩])
        .price _ <;>
      cases h2 : priceM bs (.shiftedExecutor ctx
        [⟨.riskFactorFilter .equity, .singleMeasureTarget .price, 1/100, 0⟩])
        .price _ <;>
      (simp_all
       try (split_ifs <;> simp)))

/-- C6.  Delta and Gamma are computed from the transient three-point
vectorized context on the Equity risk factor targeting Price with rel
shifts `[-0.01, 0, 0.01]` and zero abs shifts: with 1-D result
`[V_down, V, V_up]` and `h = V·0.01`, if `V = 0` the result is 0 when
`|V_up − V_down| < ε` and otherwise the error
`ShiftExecution("zero price in relshift")`; if `V ≠ 0` then
`Delta = (V_up − V_down)/(2h)` and `Gamma = (V_up − 2V + V_down)/h²`.
The dispatcher arms for Delta and Gamma are exactly these computations
followed by the context's shift processing. -/
theorem finite_difference_greeks_spec (bs : BSKernel) (ctx : PricingCtx)
    (ins : Instrument) (vd v vu : ℚ)
    (h : svPrice bs (shiftBaseCtx ctx greekTd) .price ins = .ok ⟨[3], [vd, v, vu]⟩) :
    (priceEquityDelta bs ctx ins =
      if v = 0 then
        if |vu - vd| < f64Epsilon then .ok 0
        else .error (.shiftExecutionError ins "zero price in relshift")
      else .ok ((vu - vd) / (2 * (v * (1/100))))) ∧
    (priceEquityGamma bs ctx ins =
      if v = 0 then
        if |vu - vd| < f64Epsilon then .ok 0
        else .error (.shiftExecutionError ins "zero price in relshift")
      else .ok ((vu - 2 * v + vd) / (v * (1/100)) ^ 2)) ∧
    (priceM bs ctx .delta ins = (do
      let x ← priceEquityDelta bs ctx ins
      ctx.processShifts .delta ins x)) ∧
    (priceM bs ctx .gamma ins = (do
      let x ← priceEquityGamma bs ctx ins
      ctx.processShifts .gamma ins x)) := by
  refine ⟨?_, ?_, priceM_delta_bridge bs ctx ins, priceM_gamma_bridge bs ctx ins⟩
  · rw [priceEquityDelta, greekTransformDefE_eq]
    simp [h, VectorResult.resultview1d]
  · rw [priceEquityGamma, greekTransformDefE_eq]
    simp [h, VectorResult.resultview1d]

/-- Witness for C6: an AAPL stock at spot 100; the three-point ladder is
`[99, 100, 101]`, Delta evaluates to 1. -/
theorem finite_difference_greeks_spec_witness :
    svPrice (fun _ _ => .error "") (shiftBaseCtx
        (.lookupExecutor ⟨[], [("AAPL", 100)], 0, 0⟩) greekTd) .price
        (.stock ⟨"AAPL"⟩) = .ok ⟨[3], [99, 100, 101]⟩ ∧
    priceEquityDelta (fun _ _ => .error "")
      (.lookupExecutor ⟨[], [("AAPL", 100)], 0, 0⟩) (.stock ⟨"AAPL"⟩) = .ok 1 := by
  have h : svPrice (fun _ _ => .error "") (shiftBaseCtx
      (.lookupExecutor ⟨[], [("AAPL", 100)], 0, 0⟩) greekTd) .price
      (.stock ⟨"AAPL"⟩) = .ok ⟨[3], [99, 100, 101]⟩ := by
    rw [svPrice_greek]
    simp [priceM, priceStockPrice, PricingCtx.marketPriceProvider,
      LookupCtx.marketPriceProvider, resolutionTicker, List.lookup,
      PricingCtx.processShifts, applyShiftItem, ShiftTarget.isTarget,
      InstrumentFilter.accept]
    norm_num
  refine ⟨h, ?_⟩
  rw [(finite_difference_greeks_spec (fun _ _ => .error "")
      (.lookupExecutor ⟨[], [("AAPL", 100)], 0, 0⟩) (.stock ⟨"AAPL"⟩)
      99 100 101 h).1]
  norm_num

/-- Observational equivalence of pricing contexts: same provider
resolution and same shift processing.  Measure evaluation only inspects a
context through these five functions, so it cannot distinguish equivalent
contexts (`priceM_congr_aux`). -/
def CtxEquiv (c1 c2 : PricingCtx) : Prop :=
  (∀ ins, c1.volProvider ins = c2.volProvider ins) ∧
  (∀ ins, c1.marketPriceProvider ins = c2.marketPriceProvider ins) ∧
  (∀ ins, c1.irProvider ins = c2.irProvider ins) ∧
  (∀ ins, c1.periodProvider ins = c2.periodProvider ins) ∧
  (∀ m ins v, c1.processShifts m ins v = c2.processShifts m ins v)

theorem ctxEquiv_shifted {c1 c2 : PricingCtx} (h : CtxEquiv c1 c2)
    (sh : List ShiftItem) :
    CtxEquiv (.shiftedExecutor c1 sh) (.shiftedExecutor c2 sh) := by
  obtain ⟨hvol, hmp, hir, hpp, hps⟩ := h
  refine ⟨fun ins => hvol ins, fun ins => hmp ins, fun ins => hir ins,
    fun ins => hpp ins, fun m ins v => ?_⟩
  simp only [PricingCtx.processShifts, hps]

theorem coordShifts_greek0 (c : PricingCtx) :
    coordShifts (shiftBaseCtx c greekTd).ctxVec (shiftBaseCtx c greekTd).axes [0] =
      .ok [⟨.riskFactorFilter .equity, .singleMeasureTarget .price, -(1/100), 0⟩] := rfl

theorem coordShifts_greek1 (c : PricingCtx) :
    coordShifts (shiftBaseCtx c greekTd).ctxVec (shiftBaseCtx c greekTd).axes [1] =
      .ok [⟨.riskFactorFilter .equity, .singleMeasureTarget .price, 0, 0⟩] := rfl

theorem coordShifts_greek2 (c : PricingCtx) :
    coordShifts (shiftBaseCtx c greekTd).ctxVec (shiftBaseCtx c greekTd).axes [2] =
      .ok [⟨.riskFactorFilter .equity, .singleMeasureTarget .price, 1/100, 0⟩] := rfl

/-- Congruence of measure evaluation under observational context
equivalence, by strong induction on the dispatch rank. -/
theorem priceM_congr_aux (bs : BSKernel) :
    ∀ (n : ℕ) (m : Measure) (ins : Instrument), rank m ins ≤ n →
    ∀ c1 c2, CtxEquiv c1 c2 → priceM bs c1 m ins = priceM bs c2 m ins := by
  intro n
  induction n using Nat.strong_induction_on with
  | _ n IH =>
    intro m ins hrank c1 c2 hequiv
    have hcc := hequiv
    obtain ⟨hvol, hmp, hir, hpp, hps⟩ := hequiv
    have key : ∀ m' ins', rank m' ins' < rank m ins →
        ∀ d1 d2, CtxEquiv d1 d2 → priceM bs d1 m' ins' = priceM bs d2 m' ins' :=
      fun m' ins' hlt d1 d2 hd =>
        IH (rank m' ins') (lt_of_lt_of_le hlt hrank) m' ins' le_rfl d1 d2 hd
    have hsh : ∀ sh, CtxEquiv (.shiftedExecutor c1 sh) (.shiftedExecutor c2 sh) :=
      fun sh => ctxEquiv_shifted hcc sh
    conv_lhs => rw [priceM.eq_def]
    conv_rhs => rw [priceM.eq_def]
    cases ins with
    | stock s =>
      cases m with
      | price =>
        dsimp only
        simp only [priceStockPrice, hmp, hps]
      | exposure =>
        dsimp only
        rw [key .price (.stock s) (by simp [rank]) c1 c2 hcc]
        simp only [hps]
      | delta =>
        dsimp only
        simp only [greekTransformDefE_eq, okBind, coordShifts_greek0,
          coordShifts_greek1, coordShifts_greek2]
        rw [key .price (.stock s) (by simp [rank]) _ _
            (hsh [⟨.riskFactorFilter .equity, .singleMeasureTarget .price, -(1/100), 0⟩]),
          key .price (.stock s) (by simp [rank]) _ _
            (hsh [⟨.riskFactorFilter .equity, .singleMeasureTarget .price, 0, 0⟩]),
          key .price (.stock s) (by simp [rank]) _ _
            (hsh [⟨.riskFactorFilter .equity, .singleMeasureTarget .price, 1/100, 0⟩])]
        simp only [hps]
      | gamma =>
        dsimp only
        simp only [greekTransformDefE_eq, okBind, coordShifts_greek0,
          coordShifts_greek1, coordShifts_greek2]
        rw [key .price (.stock s) (by simp [rank]) _ _
            (hsh [⟨.riskFactorFilter .equity, .singleMeasureTarget .price, -(1/100), 0⟩]),
          key .price (.stock s) (by simp [rank]) _ _
            (hsh [⟨.riskFactorFilter .equity, .singleMeasureTarget .price, 0, 0⟩]),
          key .price (.stock s) (by simp [rank]) _ _
            (hsh [⟨.riskFactorFilter .equity, .singleMeasureTarget .price, 1/100, 0⟩])]
        simp only [hps]
      | underlyingPrice =>
        dsimp only
        simp only [hps]
      | vol =>
        dsimp only
        simp only [hps]
      | rate =>
        dsimp only
        simp only [hps]
      | timeToExpiry =>
        dsimp only
        simp only [hps]
    | option o =>
      cases m with
      | price =>
        dsimp only
        rw [key .underlyingPrice (.option o) (by simp [rank]) c1 c2 hcc,
          key .rate (.option o) (by simp [rank]) c1 c2 hcc,
          key .vol (.option o) (by simp [rank]) c1 c2 hcc,
          key .timeToExpiry (.option o) (by simp [rank]) c1 c2 hcc]
        simp only [hps]
      | exposure =>
        dsimp only
        rw [key .underlyingPrice (.option o) (by simp [rank]) c1 c2 hcc,
          key .delta (.option o) (by simp [rank]) c1 c2 hcc]
        simp only [hps]
      | underlyingPrice =>
        dsimp only
        rw [key .price (.stock o.underlying) (by simp [rank]) c1 c2 hcc]
        simp only [hps]
      | vol =>
        dsimp only
        rw [hvol (.option o),
          key .underlyingPrice (.option o) (by simp [rank]) c1 c2 hcc,
          key .timeToExpiry (.option o) (by simp [rank]) c1 c2 hcc]
        simp only [hps]
      | rate =>
        dsimp only
        rw [hir (.option o)]
        simp only [hps]
      | timeToExpiry =>
        dsimp only
        rw [hpp (.option o)]
        simp only [hps]
      | delta =>
        dsimp only
        simp only [greekTransformDefE_eq, okBind, coordShifts_greek0,
          coordShifts_greek1, coordShifts_greek2]
        rw [key .price (.option o) (by simp [rank]) _ _
            (hsh [⟨.riskFactorFilter .equity, .singleMeasureTarget .price, -(1/100), 0⟩]),
          key .price (.option o) (by simp [rank]) _ _
            (hsh [⟨.riskFactorFilter .equity, .singleMeasureTarget .price, 0, 0⟩]),
          key .price (.option o) (by simp [rank]) _ _
            (hsh [⟨.riskFactorFilter .equity, .singleMeasureTarget .price, 1/100, 0⟩])]
        simp only [hps]
      | gamma =>
        dsimp only
        simp only [greekTransformDefE_eq, okBind, coordShifts_greek0,
          coordShifts_greek1, coordShifts_greek2]
        rw [key .price (.option o) (by simp [rank]) _ _
            (hsh [⟨.riskFactorFilter .equity, .singleMeasureTarget .price, -(1/100), 0⟩]),
          key .price (.option o) (by simp [rank]) _ _
            (hsh [⟨.riskFactorFilter .equity, .singleMeasureTarget .price, 0, 0⟩]),
          key .price (.option o) (by simp [rank]) _ _
            (hsh [⟨.riskFactorFilter .equity, .singleMeasureTarget .price, 1/100, 0⟩])]
        simp only [hps]

theorem getD_replicate_zero (k i : ℕ) : (List.replicate k (0:ℚ)).getD i 0 = 0 := by
  induction k generalizing i with
  | zero => simp [List.replicate]
  | succ k ih =>
    cases i with
    | zero => simp [List.replicate]
    | succ j =>
      simp only [List.replicate, List.getD_cons_succ]
      exact ih j

theorem foldl_zero_items (m : Measure) (ins : Instrument) (items : List ShiftItem)
    (hz : ∀ si ∈ items, si.relShift = 0 ∧ si.absShift = 0) (w : ℚ) :
    items.foldl (applyShiftItem m ins) w = w := by
  induction items generalizing w with
  | nil => rfl
  | cons si rest ih =>
    have hsi := hz si (List.mem_cons_self si rest)
    rw [List.foldl_cons, applyShiftItem_zero hsi.1 hsi.2]
    exact ih (fun x hx => hz x (List.mem_cons_of_mem si hx)) w

/-- A shifted executor whose items all carry zero rel and abs shifts is
observationally equivalent to its base context. -/
theorem ctxEquiv_zero_shifts (ctx : PricingCtx) (items : List ShiftItem)
    (hz : ∀ si ∈ items, si.relShift = 0 ∧ si.absShift = 0) :
    CtxEquiv (.shiftedExecutor ctx items) ctx := by
  refine ⟨fun _ => rfl, fun _ => rfl, fun _ => rfl, fun _ => rfl,
    fun m ins v => ?_⟩
  obtain ⟨w, hw⟩ := processShifts_ok ctx m ins v
  simp only [PricingCtx.processShifts, hw, okBind, foldl_zero_items m ins items hz]

theorem svEval_zero_aux (bs : BSKernel) (ctx : PricingCtx) (m : Measure)
    (ins : Instrument) (p : ℚ) (t : ShiftTarget) (k : ℕ)
    (h : priceM bs ctx m ins = .ok p) :
    ∀ l : List (List ℕ), (∀ c ∈ l, ∃ i, i < k ∧ c = [i]) →
      svEvalCoords bs ctx
        [shiftBaseCtx ctx ⟨t, ⟨.passthrough, List.replicate k 0, List.replicate k 0⟩⟩]
        [⟨0, k⟩] m ins l = .ok (l.map fun _ => p) := by
  intro l hl
  induction l with
  | nil => rfl
  | cons c cs ih =>
    obtain ⟨i, hik, hc⟩ := hl c (List.mem_cons_self c cs)
    subst hc
    have hcs : coordShifts
        [shiftBaseCtx ctx ⟨t, ⟨.passthrough, List.replicate k 0, List.replicate k 0⟩⟩]
        [⟨0, k⟩] [i] = .ok [⟨.passthrough, t, 0, 0⟩] := by
      simp [coordShifts, fillShiftItemVec, shiftBaseCtx, SVCtx.axis,
        SVCtx.transformDef, TransformDefinition.shiftItemAt,
        TransformDefinition.len, ShiftDefinition.len, Axis.newBaseAxis,
        List.length_replicate, Nat.not_le.mpr hik, getD_replicate_zero]
    have hpm : priceM bs (.shiftedExecutor ctx [⟨.passthrough, t, 0, 0⟩]) m ins =
        .ok p := by
      rw [priceM_congr_aux bs (rank m ins) m ins le_rfl _ ctx
        (ctxEquiv_zero_shifts ctx [⟨.passthrough, t, 0, 0⟩] (by simp))]
      exact h
    simp only [svEvalCoords, hcs, okBind, hpm,
      ih (fun x hx => hl x (List.mem_cons_of_mem _ hx)), List.map_cons]

theorem svCoords_singleton (k : ℕ) :
    svCoords [k] = (List.range k).map (fun i => [i]) := by
  have haux : ∀ l : List ℕ, (l.flatMap fun i => [[i]]) = l.map (fun i => [i]) := by
    intro l
    induction l <;> simp_all
  simp [svCoords, haux]

/-- C4.  With a Passthrough filter and all-zero abs and rel shifts of
length k, the stacked context built from a base context prices any measure
to a 1-D vector of length k whose every entry equals the unshifted scalar
price. -/
theorem pure_passthrough_spec (bs : BSKernel) (ctx : PricingCtx) (m : Measure)
    (ins : Instrument) (p : ℚ) (k : ℕ) (t : ShiftTarget)
    (h : priceM bs ctx m ins = .ok p) :
    svPrice bs (shiftBaseCtx ctx
      ⟨t, ⟨.passthrough, List.replicate k 0, List.replicate k 0⟩⟩) m ins =
      .ok ⟨[k], List.replicate k p⟩ := by
  have heval := svEval_zero_aux bs ctx m ins p t k h
    ((List.range k).map (fun i => [i]))
    (by
      intro c hc
      obtain ⟨i, hi, rfl⟩ := List.mem_map.mp hc
      exact ⟨i, List.mem_range.mp hi, rfl⟩)
  have hconst : ∀ l : List (List ℕ), l.map (fun _ => p) = List.replicate l.length p := by
    intro l
    induction l <;> simp_all [List.replicate_succ]
  unfold svPrice
  simp only [SVCtx.baseCtx, SVCtx.ctxVec, SVCtx.axes, SVCtx.shape,
    shiftBaseCtx, Axis.newBaseAxis, TransformDefinition.len,
    ShiftDefinition.len, List.length_replicate, List.nil_append,
    List.map_cons, List.map_nil, svCoords_singleton] at heval ⊢
  rw [heval]
  simp [hconst]

/-- Witness for C4: a lookup context with AAPL at 100; the zero-shift
passthrough ladder of length 2 prices to `[100, 100]`. -/
theorem pure_passthrough_spec_witness :
    priceM (fun _ _ => .error "") (.lookupExecutor ⟨[], [("AAPL", 100)], 0, 0⟩)
        .price (.stock ⟨"AAPL"⟩) = .ok 100 ∧
    svPrice (fun _ _ => .error "") (shiftBaseCtx
        (.lookupExecutor ⟨[], [("AAPL", 100)], 0, 0⟩)
        ⟨.singleMeasureTarget .vol,
          ⟨.passthrough, List.replicate 2 0, List.replicate 2 0⟩⟩)
      .price (.stock ⟨"AAPL"⟩) = .ok ⟨[2], List.replicate 2 100⟩ := by
  have h : priceM (fun _ _ => .error "")
      (.lookupExecutor ⟨[], [("AAPL", 100)], 0, 0⟩) .price (.stock ⟨"AAPL"⟩) =
      .ok 100 := by
    simp [priceM, priceStockPrice, PricingCtx.marketPriceProvider,
      LookupCtx.marketPriceProvider, resolutionTicker, List.lookup,
      PricingCtx.processShifts]
  exact ⟨h, pure_passthrough_spec (fun _ _ => .error "")
    (.lookupExecutor ⟨[], [("AAPL", 100)], 0, 0⟩) .price (.stock ⟨"AAPL"⟩)
    100 2 (.singleMeasureTarget .vol) h⟩

/-- C1.  Evaluation of the code at the failing input: a Stacked-aligned
chain of two one-point transforms over the same axis.
`StackedVectorizedPricingCtx::new` pushes this context's axis onto the
parent's axes unconditionally, so the Stacked child's axes list carries the
axis twice — it is NOT de-duplicated against an identical last entry — the
shape lists the dims of all (not the distinct) axes entries, and `price`
returns a 2-D `[1, 1]` tensor instead of the 1-D length-1 result the claim
derives. -/
theorem stacked_axes_duplicated :
    (shiftVectorCtx (shiftBaseCtx (.lookupExecutor ⟨[], [("AAPL", 100)], 0, 0⟩)
        ⟨.singleMeasureTarget .price, ⟨.passthrough, [0], [0]⟩⟩)
      ⟨.singleMeasureTarget .price, ⟨.passthrough, [0], [0]⟩⟩ .stacked).axes =
      [⟨0, 1⟩, ⟨0, 1⟩] ∧
    (shiftVectorCtx (shiftBaseCtx (.lookupExecutor ⟨[], [("AAPL", 100)], 0, 0⟩)
        ⟨.singleMeasureTarget .price, ⟨.passthrough, [0], [0]⟩⟩)
      ⟨.singleMeasureTarget .price, ⟨.passthrough, [0], [0]⟩⟩ .stacked).axes ≠
      [⟨0, 1⟩] ∧
    svPrice (fun _ _ => .error "")
      (shiftVectorCtx (shiftBaseCtx (.lookupExecutor ⟨[], [("AAPL", 100)], 0, 0⟩)
          ⟨.singleMeasureTarget .price, ⟨.passthrough, [0], [0]⟩⟩)
        ⟨.singleMeasureTarget .price, ⟨.passthrough, [0], [0]⟩⟩ .stacked)
      .price (.stock ⟨"AAPL"⟩) = .ok ⟨[1, 1], [100]⟩ := by
  refine ⟨by simp [shiftVectorCtx, shiftBaseCtx, SVCtx.axes, SVCtx.axis,
    Axis.newBaseAxis, TransformDefinition.len, ShiftDefinition.len],
    by simp [shiftVectorCtx, shiftBaseCtx, SVCtx.axes, SVCtx.axis,
      Axis.newBaseAxis, TransformDefinition.len, ShiftDefinition.len], ?_⟩
  simp [svPrice, svEvalCoords, svCoords, coordShifts, fillShiftItemVec,
    shiftVectorCtx, shiftBaseCtx, SVCtx.ctxVec, SVCtx.axes, SVCtx.axis,
    SVCtx.baseCtx, SVCtx.transformDef, SVCtx.shape,
    TransformDefinition.shiftItemAt, TransformDefinition.len,
    ShiftDefinition.len, Axis.newBaseAxis, priceM, priceStockPrice,
    PricingCtx.marketPriceProvider, LookupCtx.marketPriceProvider,
    resolutionTicker, List.lookup, PricingCtx.processShifts, applyShiftItem,
    ShiftTarget.isTarget, InstrumentFilter.accept]

/-- C2.  Evaluation of the code at the failing input: two Passthrough
Price transforms (abs shifts `[1]` and `[10]`) stacked on one axis of dim 1
over a lookup context with AAPL at 100.  Because the duplicated axis is
walked once per occurrence in `axes`, the coordinate loop pushes each
transform's index-0 item twice, and the 2-D `[1, 1]` result holds
100+1+10+1+10 = 122 — not the 1-D `[111]` (each item applied once) the
claim derives. -/
theorem stacked_superposition_double_application :
    svPrice (fun _ _ => .error "")
      (shiftVectorCtx (shiftBaseCtx (.lookupExecutor ⟨[], [("AAPL", 100)], 0, 0⟩)
          ⟨.singleMeasureTarget .price, ⟨.passthrough, [0], [1]⟩⟩)
        ⟨.singleMeasureTarget .price, ⟨.passthrough, [0], [10]⟩⟩ .stacked)
      .price (.stock ⟨"AAPL"⟩) = .ok ⟨[1, 1], [122]⟩ ∧
    svPrice (fun _ _ => .error "")
      (shiftVectorCtx (shiftBaseCtx (.lookupExecutor ⟨[], [("AAPL", 100)], 0, 0⟩)
          ⟨.singleMeasureTarget .price, ⟨.passthrough, [0], [1]⟩⟩)
        ⟨.singleMeasureTarget .price, ⟨.passthrough, [0], [10]⟩⟩ .stacked)
      .price (.stock ⟨"AAPL"⟩) ≠ .ok ⟨[1], [111]⟩ := by
  have h : svPrice (fun _ _ => .error "")
      (shiftVectorCtx (shiftBaseCtx (.lookupExecutor ⟨[], [("AAPL", 100)], 0, 0⟩)
          ⟨.singleMeasureTarget .price, ⟨.passthrough, [0], [1]⟩⟩)
        ⟨.singleMeasureTarget .price, ⟨.passthrough, [0], [10]⟩⟩ .stacked)
      .price (.stock ⟨"AAPL"⟩) = .ok ⟨[1, 1], [122]⟩ := by
    simp [svPrice, svEvalCoords, svCoords, coordShifts, fillShiftItemVec,
      shiftVectorCtx, shiftBaseCtx, SVCtx.ctxVec, SVCtx.axes, SVCtx.axis,
      SVCtx.baseCtx, SVCtx.transformDef, SVCtx.shape,
      TransformDefinition.shiftItemAt, TransformDefinition.len,
      ShiftDefinition.len, Axis.newBaseAxis, priceM, priceStockPrice,
      PricingCtx.marketPriceProvider, LookupCtx.marketPriceProvider,
      resolutionTicker, List.lookup, PricingCtx.processShifts, applyShiftItem,
      ShiftTarget.isTarget, InstrumentFilter.accept]
    norm_num
  refine ⟨h, ?_⟩
  rw [h]
  intro hcontra
  simp at hcontra

/-- PricingCtx::price decomposes as dispatch_measure followed by
process_shifts: the single-recursion `priceM` agrees with the layered
per-source wrappers on every measure and instrument. -/
theorem priceM_eq_dispatch (bs : BSKernel) (ctx : PricingCtx) (m : Measure)
    (ins : Instrument) :
    priceM bs ctx m ins = (do
      let v ← dispatchMeasure bs ctx m ins
      ctx.processShifts m ins v) := by
  cases ins with
  | stock s =>
    cases m with
    | price =>
      conv_lhs => rw [priceM.eq_def]
      dsimp only
      simp only [dispatchMeasure, instrumentCalc, priceStock]
      cases h : priceStockPrice ctx s <;> simp [h]
    | exposure =>
      conv_lhs => rw [priceM.eq_def]
      dsimp only
      simp only [dispatchMeasure, instrumentCalc, priceStock]
      cases h : priceM bs ctx .price (.stock s) <;> simp [h]
    | delta =>
      rw [priceM_delta_bridge]
      simp only [dispatchMeasure, instrumentCalc, priceStock, priceGeneric,
        okBind]
    | gamma =>
      rw [priceM_gamma_bridge]
      simp only [dispatchMeasure, instrumentCalc, priceStock, priceGeneric,
        okBind]
    | underlyingPrice =>
      conv_lhs => rw [priceM.eq_def]
      dsimp only
      simp [dispatchMeasure, instrumentCalc, priceStock, priceGeneric]
    | vol =>
      conv_lhs => rw [priceM.eq_def]
      dsimp only
      simp [dispatchMeasure, instrumentCalc, priceStock, priceGeneric]
    | rate =>
      conv_lhs => rw [priceM.eq_def]
      dsimp only
      simp [dispatchMeasure, instrumentCalc, priceStock, priceGeneric]
    | timeToExpiry =>
      conv_lhs => rw [priceM.eq_def]
      dsimp only
      simp [dispatchMeasure, instrumentCalc, priceStock, priceGeneric]
  | option o =>
    cases m with
    | price =>
      conv_lhs => rw [priceM.eq_def]
      dsimp only
      simp only [dispatchMeasure, instrumentCalc, priceOption]
      cases h0 : priceM bs ctx .underlyingPrice (.option o) <;> simp only [h0, okBind, errorBind]
      cases h1 : priceM bs ctx .rate (.option o) <;> simp only [h1, okBind, errorBind]
      cases h2 : priceM bs ctx .vol (.option o) <;> simp only [h2, okBind, errorBind]
      cases h3 : priceM bs ctx .timeToExpiry (.option o) <;> simp only [h3, okBind, errorBind]
      cases h4 : bs ⟨_, o.strike, _, _, _⟩ o.optionType <;> simp [h4]
    | exposure =>
      conv_lhs => rw [priceM.eq_def]
      dsimp only
      simp only [dispatchMeasure, instrumentCalc, priceOption]
      cases h0 : priceM bs ctx .underlyingPrice (.option o) <;> simp only [h0, okBind, errorBind]
      cases h1 : priceM bs ctx .delta (.option o) <;> simp [h1]
    | underlyingPrice =>
      conv_lhs => rw [priceM.eq_def]
      dsimp only
      simp only [dispatchMeasure, instrumentCalc, priceOption]
      cases h0 : priceM bs ctx .price (.stock o.underlying) <;> simp [h0]
    | vol =>
      conv_lhs => rw [priceM.eq_def]
      dsimp only
      simp only [dispatchMeasure, instrumentCalc, priceOption]
      cases hv : ctx.volProvider (.option o) <;> simp only [hv, okBind, errorBind]
      · cases h0 : priceM bs ctx .underlyingPrice (.option o) <;> simp only [h0, okBind, errorBind]
        cases h1 : priceM bs ctx .timeToExpiry (.option o) <;> simp [h1]
    | rate =>
      conv_lhs => rw [priceM.eq_def]
      dsimp only
      simp only [dispatchMeasure, instrumentCalc, priceOption]
      cases hr : ctx.irProvider (.option o) <;> simp [hr]
    | timeToExpiry =>
      conv_lhs => rw [priceM.eq_def]
      dsimp only
      simp only [dispatchMeasure, instrumentCalc, priceOption]
      cases hp : ctx.periodProvider (.option o) <;> simp [hp]
    | delta =>
      rw [priceM_delta_bridge]
      simp only [dispatchMeasure, instrumentCalc, priceOption, priceGeneric,
        okBind]
    | gamma =>
      rw [priceM_gamma_bridge]
      simp only [dispatchMeasure, instrumentCalc, priceOption, priceGeneric,
        okBind]


end OptPricer
